import Mathlib

/-!
Shallow embedding of `toot-relay.go` (repository `noppefoxwolf/toot-relay`).

The embedding models bytes as `Nat` (claims quantify over lists whose
elements are `< 256`), Go strings as `String` or `List Char`, and the HTTP
handler as a pure function from a request record to an outcome that records
which early-return site fired (with the message it writes) or which
notification is handed to the push client.
-/

/-! ### Custom Base-85 codec (`encode85`, lines 189-231) -/

/-- The 85-character alphabet `z85digits` (line 189), byte for byte. -/
def z85digitList : List Char :=
  "0123456789abcdefghijklmnopqrstuvwxyzABCDEFGHIJKLMNOPQRSTUVWXYZ.-:+=^!/*?&<>()[]\x7b\x7d@%$#".toList

/-- Indexing `z85digits[n]`; in the source the index is always `value % 85 < 85`,
so the default is never used. -/
def digit85 (n : Nat) : Char := z85digitList.getD n ' '

/-- The digit-emitting loop shared by both the full-block and the tail case
(lines 207-210 and 224-227): `count` iterations of
`dest[count-1-i] = z85digits[value%85]; value /= 85`.  The first digit
computed (`v % 85`) lands in the last slot, the remaining `count-1` digits
are the same loop run on `v / 85`. -/
def encodeGroup : Nat → Nat → List Char
  | 0, _ => []
  | n + 1, v => encodeGroup n (v / 85) ++ [digit85 (v % 85)]

/-- Model of `binary.BigEndian.Uint32(src)` (line 205), from the Go standard
library's documented semantics: the 4 bytes as a big-endian unsigned 32-bit
integer.  For bytes `< 256` the value is below `2^32`, so no truncation
arises. -/
def uint32BE (b0 b1 b2 b3 : Nat) : Nat :=
  ((b0 * 256 + b1) * 256 + b2) * 256 + b3

/-- The tail-value loop (lines 217-222): `value *= 256; value |= int(src[i])`. -/
def tailValue (bs : List Nat) : Nat :=
  bs.foldl (fun acc b => acc * 256 ||| b) 0

/-- The function `encode85` (lines 191-231).  Full 4-byte blocks each produce 5 digits of
their big-endian 32-bit value; a 1-, 2- or 3-byte tail produces
`suffixLength + 1` digits of the value accumulated by `tailValue`. -/
def encode85 : List Nat → List Char
  | b0 :: b1 :: b2 :: b3 :: rest =>
      encodeGroup 5 (uint32BE b0 b1 b2 b3) ++ encode85 rest
  | [] => []
  | [b0] => encodeGroup 2 (tailValue [b0])
  | [b0, b1] => encodeGroup 3 (tailValue [b0, b1])
  | [b0, b1, b2] => encodeGroup 4 (tailValue [b0, b1, b2])

-- Z85 reference vector: 0x86 0x4F 0xD2 0x6F 0xB5 0x59 0xF7 0x5B encodes to "HelloWorld".
example : encode85 [0x86, 0x4F, 0xD2, 0x6F, 0xB5, 0x59, 0xF7, 0x5B] = "HelloWorld".toList := by
  decide

example : encode85 [0, 0, 0] = "0000".toList := by decide

example : encode85 [] = [] := by decide

/-! ### Header key-value parser (`parseKeyValues`, lines 173-187) -/

/-- Model of `strings.Split(s, sep)` for a one-character separator, on `List Char`:
splits around every occurrence of `sep`, keeping empty pieces, and always
returns at least one piece. -/
def splitOnChar (sep : Char) : List Char → List (List Char)
  | [] => [[]]
  | c :: rest =>
    match splitOnChar sep rest with
    | [] => [[]]
    | g :: gs => if c = sep then [] :: g :: gs else (c :: g) :: gs

example : splitOnChar '/' "/relay-to/abc/foo".toList =
    [[], "relay-to".toList, "abc".toList, "foo".toList] := by decide

example : splitOnChar '=' "a=b=c".toList = ["a".toList, "b".toList, "c".toList] := by decide

/-- Model of `strings.FieldsFunc(values, c == ';')` (line 178): split on `';'` and drop
the empty pieces. -/
def fieldsSemi (values : List Char) : List (List Char) :=
  (splitOnChar ';' values).filter (fun e => e ≠ [])

/-- Lookup in the association-list model of the Go map; entries are prepended
as they are written, so the first match is the most recent write (Go map
semantics: a later `m[k] = v` overwrites). -/
def kvLookup : List (List Char × List Char) → List Char → Option (List Char)
  | [], _ => none
  | (k, v) :: rest, key => if k = key then some v else kvLookup rest key

/-- The entry loop of `parseKeyValues` (lines 181-184):
`parts := strings.Split(entry, "="); m[parts[0]] = parts[1]`.
An entry whose split has fewer than two parts makes `parts[1]` an
out-of-range access — Go panics — modelled as `none`. -/
def parseLoop : List (List Char) → List (List Char × List Char) →
    Option (List (List Char × List Char))
  | [], m => some m
  | e :: rest, m =>
    match splitOnChar '=' e with
    | k :: v :: _ => parseLoop rest ((k, v) :: m)
    | _ => none

/-- The function `parseKeyValues` (lines 173-187), total model: `none` is the index
out-of-range panic on a field without `'='`. -/
def parseKeyValues (values : String) : Option (List (List Char × List Char)) :=
  parseLoop (fieldsSemi values.toList) []

example : parseKeyValues "dh=AAA;salt=BBB" =
    some [("salt".toList, "BBB".toList), ("dh".toList, "AAA".toList)] := by decide

example : parseKeyValues "" = some [] := by decide

example : parseKeyValues "dh" = none := by decide

-- `strings.Split` keeps everything after the second '=' in later parts;
-- the code stores only `parts[1]`.
example : parseKeyValues "dh=AAA=BBB" = some [("dh".toList, "AAA".toList)] := by decide

/-! ### Base64url decoding (`base64.RawURLEncoding.DecodeString`, line 165)

Modelled from the Go standard library's documented semantics: RFC 4648 URL
alphabet (`A-Z a-z 0-9 - _`), no padding accepted, input length `% 4 = 1`
rejected, and (as in Go's non-strict mode) trailing bits of a partial final
quantum are discarded without being checked. -/

/-- Sextet value of a base64url alphabet character. -/
def b64urlIndex (c : Char) : Option Nat :=
  if 65 ≤ c.toNat ∧ c.toNat ≤ 90 then some (c.toNat - 65)
  else if 97 ≤ c.toNat ∧ c.toNat ≤ 122 then some (c.toNat - 97 + 26)
  else if 48 ≤ c.toNat ∧ c.toNat ≤ 57 then some (c.toNat - 48 + 52)
  else if c = '-' then some 62
  else if c = '_' then some 63
  else none

/-- Reassemble bytes from sextets, 4 sextets per 3 bytes; a final quantum of
2 or 3 sextets yields 1 or 2 bytes, a single leftover sextet is an error. -/
def b64Groups : List Nat → Option (List Nat)
  | [] => some []
  | [_] => none
  | [v0, v1] => some [v0 * 4 + v1 / 16]
  | [v0, v1, v2] => some [v0 * 4 + v1 / 16, v1 % 16 * 16 + v2 / 4]
  | v0 :: v1 :: v2 :: v3 :: rest =>
    match b64Groups rest with
    | none => none
    | some tl =>
        some ((v0 * 4 + v1 / 16) :: (v1 % 16 * 16 + v2 / 4) :: (v2 % 4 * 64 + v3) :: tl)

/-- Model of `base64.RawURLEncoding.DecodeString` as a total function. -/
def base64urlDecode (s : List Char) : Option (List Nat) :=
  match s.mapM b64urlIndex with
  | none => none
  | some vs => b64Groups vs

example : base64urlDecode "AAAA".toList = some [0, 0, 0] := by decide

example : base64urlDecode "aGk".toList = some [104, 105] := by decide

example : base64urlDecode "a!b".toList = none := by decide

example : base64urlDecode "A".toList = none := by decide

/-! ### TTL parsing and expiration arithmetic (lines 111-115)

`strconv.Atoi` is modelled from its documented semantics on a 64-bit
platform: optional sign, a non-empty run of decimal digits, value within
`int64` range, anything else an error.  `time.Duration(ttl) * time.Second`
is `int64` multiplication by `10^9`, which wraps on overflow. -/

/-- Two's-complement wrap of an integer into the `int64` range. -/
def int64wrap (x : Int) : Int :=
  (x + 9223372036854775808) % 18446744073709551616 - 9223372036854775808

/-- Model of `strconv.Atoi` on a 64-bit platform, as a total function. -/
def goAtoi (s : String) : Option Int :=
  let cs := s.toList
  let signed : Int × List Char :=
    match cs with
    | '-' :: rest => (-1, rest)
    | '+' :: rest => (1, rest)
    | _ => (1, cs)
  if signed.2 = [] then none
  else if signed.2.all (fun c => 48 ≤ c.toNat ∧ c.toNat ≤ 57) then
    let mag : Nat := signed.2.foldl (fun a c => a * 10 + (c.toNat - 48)) 0
    let v : Int := signed.1 * mag
    if -9223372036854775808 ≤ v ∧ v ≤ 9223372036854775807 then some v else none
  else none

example : goAtoi "60" = some 60 := by decide

example : goAtoi "-5" = some (-5) := by decide

example : goAtoi "" = none := by decide

example : goAtoi "07x" = none := by decide

/-! ### The HTTP handler (`handler`, lines 59-148) -/

/-- The inbound request as the handler reads it: the URL path, the raw body
bytes, and the header values the handler asks for.  `http.Header.Get`
returns `""` for an absent header, so each header is a plain string with
`""` meaning absent. -/
structure Request where
  path : String
  body : List Nat
  contentEncoding : String
  cryptoKey : String
  encryption : String
  ttl : String
  topic : String
  urgency : String
deriving DecidableEq, Repr

/-- The constant `apns2.PriorityLow` of the external apns2 library. -/
def priorityLow : Nat := 5

/-- The constant `apns2.PriorityHigh` of the external apns2 library. -/
def priorityHigh : Nat := 10

/-- The notification handed to `client.Push` (lines 69-128): device token,
the custom payload fields `p`, `x`, `k`, `s`, and the fixed alert, flags
and topic.  `expiration` is the absolute time in nanoseconds
(`time.Now()` is the parameter `now` of the handler). -/
structure Notification where
  deviceToken : List Char
  p : List Char
  x : Option (List Char)
  k : Option (List Char)
  s : Option (List Char)
  alert : String
  mutableContent : Bool
  contentAvailable : Bool
  topic : String
  expiration : Option Int
  collapseID : Option String
  priority : Nat
deriving DecidableEq, Repr

/-- What the handler does with a request: each early-`return` site of the
Go function is one constructor carrying the message it writes (without the
trailing newline of `fmt.Fprintln`), `panicked` is the index-out-of-range
panic reachable through `parseKeyValues`, and `push n` means `n` is handed
to `client.Push`. -/
inductive HandlerOutcome where
  | malformedPath (msg : String)
  | cryptoError (msg : String)
  | unsupportedEncoding (msg : String)
  | panicked
  | push (n : Notification)
deriving DecidableEq, Repr

/-- The HTTP status each early-return site writes (`WriteHeader` calls at
lines 63, 89, 98, 105); `push` has no status of its own — it is decided by
the delivery result — and a panic writes none. -/
def statusOf : HandlerOutcome → Option Nat
  | .malformedPath _ => some 500
  | .cryptoError _ => some 500
  | .unsupportedEncoding _ => some 415
  | .panicked => none
  | .push _ => none

/-- Result of `encodedValue` (lines 158-171) in the total model. -/
inductive EncResult where
  | panicked
  | failed (msg : String)
  | ok (v : List Char)
deriving DecidableEq, Repr

/-- The function `encodedValue(header, name, key)` (lines 158-171); the header's value is
passed directly in place of `header.Get(name)`.  The Go base64 error also
reports a byte offset, which is not modelled. -/
def encodedValue (headerValue : String) (key name : String) : EncResult :=
  match parseKeyValues headerValue with
  | none => .panicked
  | some m =>
    match kvLookup m key.toList with
    | none => .failed ("Value " ++ key ++ " not found in header " ++ name)
    | some v =>
      match base64urlDecode v with
      | none => .failed "illegal base64 data"
      | some bs => .ok (encode85 bs)

/-- The notification built on the success path (lines 69-126). -/
def buildNotification (now : Int) (req : Request) (components : List (List Char))
    (kVal sVal : List Char) : Notification where
  deviceToken := components.getD 2 []
  p := encode85 req.body
  x := if 3 < components.length
    then some (List.intercalate ['/'] (components.drop 3)) else none
  k := some kVal
  s := some sVal
  alert := "🎺"
  mutableContent := true
  contentAvailable := true
  topic := "dev.noppe.snowfox"
  expiration :=
    if req.ttl ≠ "" then
      match goAtoi req.ttl with
      | some t => some (now + int64wrap (t * 1000000000))
      | none => none
    else none
  collapseID := if req.topic ≠ "" then some req.topic else none
  priority := if req.urgency = "very-low" ∨ req.urgency = "low"
    then priorityLow else priorityHigh

/-- The function `handler` (lines 59-148) up to the call of `client.Push`: the path split
and length check (lines 60-67), the `Content-Encoding` switch with its
`aesgcm` case and 415 default (lines 84-109), and on success the fully
built notification.  The payload fields `p` and `x` are pure and are
carried into `buildNotification` unchanged. -/
def handler (now : Int) (req : Request) : HandlerOutcome :=
  let components := splitOnChar '/' req.path.toList
  if components.length < 3 then
    .malformedPath ("Invalid URL path: " ++ req.path)
  else if req.contentEncoding = "aesgcm" then
    match encodedValue req.cryptoKey "dh" "Crypto-Key" with
    | .panicked => .panicked
    | .failed msg => .cryptoError ("Error retrieving public key: " ++ msg)
    | .ok kVal =>
      match encodedValue req.encryption "salt" "Encryption" with
      | .panicked => .panicked
      | .failed msg => .cryptoError ("Error retrieving salt: " ++ msg)
      | .ok sVal => .push (buildNotification now req components kVal sVal)
  else
    .unsupportedEncoding ("Unsupported Content-Encoding: " ++ req.contentEncoding)

/-- A well-formed sample request used in several sanity checks. -/
def sampleRequest : Request where
  path := "/relay-to/abc123/foo/bar"
  body := [1, 2, 3, 4]
  contentEncoding := "aesgcm"
  cryptoKey := "dh=AAAA"
  encryption := "salt=aGk"
  ttl := "60"
  topic := ""
  urgency := ""

/-- The notification the handler builds for `sampleRequest` at `now = 0`. -/
def sampleNotification : Notification where
  deviceToken := "abc123".toList
  p := encode85 [1, 2, 3, 4]
  x := some "foo/bar".toList
  k := some (encode85 [0, 0, 0])
  s := some (encode85 [104, 105])
  alert := "🎺"
  mutableContent := true
  contentAvailable := true
  topic := "dev.noppe.snowfox"
  expiration := some 60000000000
  collapseID := none
  priority := 10

/-- A non-`aesgcm` request whose path also fails the length check. -/
def c5Request : Request where
  path := "/relay-to"
  body := []
  contentEncoding := "aes128gcm"
  cryptoKey := ""
  encryption := ""
  ttl := ""
  topic := ""
  urgency := ""

/-- Variant of `sampleRequest` with a trailing slash: one extra, empty path
segment. -/
def c6Request : Request := { sampleRequest with path := "/relay-to/abc/" }

/-- The notification built for `c6Request`: `x` is present and empty. -/
def c6Notification : Notification :=
  { sampleNotification with deviceToken := "abc".toList, x := some [] }

/-- A request whose target path segment is present but empty. -/
def c7Request : Request := { sampleRequest with path := "/relay-to/" }

/-- The notification built for `c7Request`: empty device token, no `x`. -/
def c7Notification : Notification :=
  { sampleNotification with deviceToken := [], x := none }

/-- Variant of `sampleRequest` with a negative `TTL` header. -/
def c8Request : Request := { sampleRequest with ttl := "-5" }

/-- The notification built for `c8Request`: expiration 5 seconds in the past. -/
def c8Notification : Notification :=
  { sampleNotification with expiration := some (-5000000000) }

/-! ### Spec-side definitions used by the refinement claims -/

/-- Modelled from the spec's words: `k` digits of `v`, most-significant
first — output position `j` carries digit `v / 85 ^ (k-1-j) mod 85`. -/
def base85MSF (v : Nat) (k : Nat) : List Char :=
  (List.range k).map fun j => digit85 (v / 85 ^ (k - 1 - j) % 85)

/-- Modelled from the spec's words: each full 4-byte block becomes the 5
most-significant-first digits of its big-endian 32-bit value; a `k`-byte
tail (`k ∈ {1,2,3}`) becomes the `k+1` most-significant-first digits of the
big-endian integer built only from the `k` present bytes. -/
def encode85Spec : List Nat → List Char
  | b0 :: b1 :: b2 :: b3 :: rest =>
      base85MSF (((b0 * 256 + b1) * 256 + b2) * 256 + b3) 5 ++ encode85Spec rest
  | [] => []
  | [b0] => base85MSF b0 2
  | [b0, b1] => base85MSF (b0 * 256 + b1) 3
  | [b0, b1, b2] => base85MSF ((b0 * 256 + b1) * 256 + b2) 4

/-- Modelled from the amended spec wording: split on `';'` discarding empty
fields; every field must split on `'='` into at least two parts (else the
parse errors); the key is the part before the first `'='` and the value is
the part between the first and the second `'='` — text after a second `'='`
is discarded.  Later fields override earlier ones on lookup. -/
def parseKeyValuesAmended (values : String) : Option (List (List Char × List Char)) :=
  let entries := fieldsSemi values.toList
  if entries.all (fun e => 2 ≤ (splitOnChar '=' e).length) then
    some ((entries.map fun e =>
      ((splitOnChar '=' e).getD 0 [], (splitOnChar '=' e).getD 1 [])).reverse)
  else none

example :
    handler 0 sampleRequest = .push
      { deviceToken := "abc123".toList
        p := encode85 [1, 2, 3, 4]
        x := some "foo/bar".toList
        k := some (encode85 [0, 0, 0])
        s := some (encode85 [104, 105])
        alert := "🎺"
        mutableContent := true
        contentAvailable := true
        topic := "dev.noppe.snowfox"
        expiration := some 60000000000
        collapseID := none
        priority := 10 } := by decide

example :
    handler 0 { sampleRequest with contentEncoding := "aes128gcm" } =
      .unsupportedEncoding "Unsupported Content-Encoding: aes128gcm" := by decide

example :
    handler 0 { sampleRequest with path := "/relay-to" } =
      .malformedPath "Invalid URL path: /relay-to" := by decide

example :
    handler 0 { sampleRequest with cryptoKey := "p256ecdsa=AAAA" } =
      .cryptoError "Error retrieving public key: Value dh not found in header Crypto-Key" := by
  decide

example :
    handler 0 { sampleRequest with cryptoKey := "dh" } = .panicked := by decide

/-! ### Codec lemmas -/

lemma z85_length : z85digitList.length = 85 := by decide

lemma digit85_mem {n : Nat} (h : n < 85) : digit85 n ∈ z85digitList := by
  rw [digit85, List.getD_eq_getElem _ _ (by rw [z85_length]; exact h)]
  exact List.getElem_mem _

lemma encodeGroup_length (k v : Nat) : (encodeGroup k v).length = k := by
  induction k generalizing v with
  | zero => rfl
  | succ n ih => simp [encodeGroup, ih]

lemma encodeGroup_mem (k v : Nat) : ∀ c ∈ encodeGroup k v, c ∈ z85digitList := by
  induction k generalizing v with
  | zero => simp [encodeGroup]
  | succ n ih =>
    intro c hc
    rw [encodeGroup, List.mem_append] at hc
    rcases hc with h | h
    · exact ih _ c h
    · rw [List.mem_singleton] at h
      exact h ▸ digit85_mem (Nat.mod_lt _ (by omega))

lemma encode85_cons4 (b0 b1 b2 b3 : Nat) (rest : List Nat) :
    encode85 (b0 :: b1 :: b2 :: b3 :: rest) =
      encodeGroup 5 (uint32BE b0 b1 b2 b3) ++ encode85 rest := rfl

lemma encode85_length (bs : List Nat) :
    (encode85 bs).length = 5 * (bs.length / 4) +
      (if bs.length % 4 = 0 then 0 else bs.length % 4 + 1) := by
  induction bs using encode85.induct with
  | case1 b0 b1 b2 b3 rest ih =>
    rw [encode85_cons4, List.length_append, encodeGroup_length, ih]
    simp only [List.length_cons]
    have h4 : (rest.length + 1 + 1 + 1 + 1) / 4 = rest.length / 4 + 1 := by omega
    have h4m : (rest.length + 1 + 1 + 1 + 1) % 4 = rest.length % 4 := by omega
    rw [h4, h4m]
    omega
  | case2 => rfl
  | case3 b0 => simp [encode85, encodeGroup_length]
  | case4 b0 b1 => simp [encode85, encodeGroup_length]
  | case5 b0 b1 b2 => simp [encode85, encodeGroup_length]

lemma encode85_mem (bs : List Nat) : ∀ c ∈ encode85 bs, c ∈ z85digitList := by
  induction bs using encode85.induct with
  | case1 b0 b1 b2 b3 rest ih =>
    intro c hc
    rw [encode85_cons4, List.mem_append] at hc
    exact hc.elim (encodeGroup_mem _ _ c) (ih c)
  | case2 => simp [encode85]
  | case3 b0 => exact encodeGroup_mem _ _
  | case4 b0 b1 => exact encodeGroup_mem _ _
  | case5 b0 b1 b2 => exact encodeGroup_mem _ _

/-- Claim C2: For a `4n`-byte input the encoder emits exactly `5n` characters;
for a `4n+k`-byte input (`k ∈ {1,2,3}`) exactly `5n+k+1` characters —
equivalently `⌈length * 5 / 4⌉` — the empty sequence encodes to the empty
string, and every emitted character belongs to the 85-character alphabet. -/
theorem c2_output_length (bs : List Nat) :
    (bs.length % 4 = 0 → (encode85 bs).length = 5 * (bs.length / 4))
    ∧ (bs.length % 4 ≠ 0 →
        (encode85 bs).length = 5 * (bs.length / 4) + bs.length % 4 + 1)
    ∧ encode85 [] = []
    ∧ (encode85 bs).length = (5 * bs.length + 3) / 4
    ∧ ∀ c ∈ encode85 bs, c ∈ z85digitList := by
  have h := encode85_length bs
  refine ⟨fun h0 => ?_, fun h0 => ?_, rfl, ?_, encode85_mem bs⟩
  · rw [h, if_pos h0]; omega
  · rw [h, if_neg h0]; omega
  · rw [h]; split_ifs <;> omega

/-- Closed witness for `c2_output_length` at a 4-byte and a 3-byte input. -/
theorem c2_output_length_witness :
    (encode85 [1, 2, 3, 4]).length = 5 * (4 / 4)
    ∧ (encode85 [1, 2, 3]).length = 5 * (3 / 4) + 3 % 4 + 1 :=
  ⟨(c2_output_length [1, 2, 3, 4]).1 (by decide),
   (c2_output_length [1, 2, 3]).2.1 (by decide)⟩

/-! ### C1: the encoder against the spec's description -/

lemma encodeGroup_eq_base85MSF (k v : Nat) : encodeGroup k v = base85MSF v k := by
  induction k generalizing v with
  | zero => simp [encodeGroup, base85MSF]
  | succ n ih =>
    rw [encodeGroup, ih, base85MSF, base85MSF, List.range_succ, List.map_append,
      List.map_singleton]
    congr 1
    · apply List.map_congr_left
      intro j hj
      rw [List.mem_range] at hj
      have h1 : n + 1 - 1 - j = n - 1 - j + 1 := by omega
      rw [h1, pow_succ', Nat.div_div_eq_div_mul]
    · simp

lemma lor256 (a b : Nat) (h : b < 256) : a * 256 ||| b = a * 256 + b := by
  rw [show a * 256 = 2 ^ 8 * a by ring]
  exact (Nat.mul_add_lt_is_or (by simpa using h) a).symm

lemma tailValue_one (b0 : Nat) : tailValue [b0] = b0 := by
  simp [tailValue]

lemma tailValue_two (b0 b1 : Nat) (h1 : b1 < 256) :
    tailValue [b0, b1] = b0 * 256 + b1 := by
  simp only [tailValue, List.foldl_cons, List.foldl_nil, Nat.zero_mul, Nat.zero_or]
  exact lor256 b0 b1 h1

lemma tailValue_three (b0 b1 b2 : Nat) (h1 : b1 < 256) (h2 : b2 < 256) :
    tailValue [b0, b1, b2] = (b0 * 256 + b1) * 256 + b2 := by
  simp only [tailValue, List.foldl_cons, List.foldl_nil, Nat.zero_mul, Nat.zero_or]
  rw [lor256 b0 b1 h1, lor256 _ b2 h2]

/-- Claim C1: On byte sequences (all elements `< 256`) the encoder agrees with
the spec's description: each full 4-byte block yields the 5
most-significant-first base-85 digits of its big-endian 32-bit value, and a
`k`-byte tail (`k ∈ {1,2,3}`) yields the `k+1` most-significant-first
digits of the big-endian integer built only from the `k` present bytes. -/
theorem c1_encoder_matches_spec (bs : List Nat) (hbytes : ∀ b ∈ bs, b < 256) :
    encode85 bs = encode85Spec bs := by
  induction bs using encode85.induct with
  | case1 b0 b1 b2 b3 rest ih =>
    rw [encode85_cons4, encode85Spec, encodeGroup_eq_base85MSF]
    have : uint32BE b0 b1 b2 b3 = ((b0 * 256 + b1) * 256 + b2) * 256 + b3 := rfl
    rw [this, ih (fun b hb => hbytes b (by simp [hb]))]
  | case2 => rfl
  | case3 b0 =>
    rw [show encode85 [b0] = encodeGroup 2 (tailValue [b0]) from rfl,
      encodeGroup_eq_base85MSF, tailValue_one, encode85Spec]
  | case4 b0 b1 =>
    rw [show encode85 [b0, b1] = encodeGroup 3 (tailValue [b0, b1]) from rfl,
      encodeGroup_eq_base85MSF, tailValue_two b0 b1 (hbytes b1 (by simp)),
      encode85Spec]
  | case5 b0 b1 b2 =>
    rw [show encode85 [b0, b1, b2] = encodeGroup 4 (tailValue [b0, b1, b2]) from rfl,
      encodeGroup_eq_base85MSF,
      tailValue_three b0 b1 b2 (hbytes b1 (by simp)) (hbytes b2 (by simp)),
      encode85Spec]

/-- Closed witness for `c1_encoder_matches_spec` on a 6-byte input
(one full block plus a 2-byte tail). -/
theorem c1_encoder_matches_spec_witness :
    encode85 [17, 250, 0, 99, 255, 1] = encode85Spec [17, 250, 0, 99, 255, 1] :=
  c1_encoder_matches_spec [17, 250, 0, 99, 255, 1] (by decide)

/-! ### C4 / C10: the key-value parser -/

lemma parseLoop_eq (es : List (List Char)) (m : List (List Char × List Char)) :
    parseLoop es m =
      if es.all (fun e => 2 ≤ (splitOnChar '=' e).length) then
        some ((es.map fun e =>
          ((splitOnChar '=' e).getD 0 [], (splitOnChar '=' e).getD 1 [])).reverse ++ m)
      else none := by
  induction es generalizing m with
  | nil => simp [parseLoop]
  | cons e rest ih =>
    rw [parseLoop]
    cases hsp : splitOnChar '=' e with
    | nil => simp [hsp]
    | cons k tl =>
      cases tl with
      | nil => simp [hsp]
      | cons v rest2 =>
        show parseLoop rest ((k, v) :: m) = _
        rw [ih]
        by_cases hall : rest.all (fun e => 2 ≤ (splitOnChar '=' e).length)
        · simp [hsp, hall]
        · simp [hsp, hall]

/-- Claim C4 (amended): The parser splits on `';'` discarding empty fields and
requires each remaining field to contain `'='`; the key is the text before
the first `'='` and the value is the text *between the first and second*
`'='` — anything after a second `'='` is discarded (the original claim's
"everything after the first `'='`" is refuted by `c4_counterexample`).
The two examples of the spec hold as stated. -/
theorem c4_parser_amended :
    (∀ values : String, parseKeyValues values = parseKeyValuesAmended values)
    ∧ (parseKeyValues "dh=AAA;salt=BBB").map (fun m =>
        (kvLookup m "dh".toList, kvLookup m "salt".toList)) =
      some (some "AAA".toList, some "BBB".toList)
    ∧ parseKeyValues "" = some [] := by
  refine ⟨fun values => ?_, by decide, by decide⟩
  rw [parseKeyValues, parseKeyValuesAmended, parseLoop_eq]
  by_cases hall : (fieldsSemi values.toList).all (fun e => 2 ≤ (splitOnChar '=' e).length)
  · simp [hall]
  · simp [hall]

/-- Claim C4 counterexample: On `"dh=AAA=BBB"` the code stores value `"AAA"`
(the part between the first and second `'='`), not `"AAA=BBB"` as the
claim's "everything after the first `'='`, including further `'='`
characters" would require. -/
theorem c4_counterexample :
    (parseKeyValues "dh=AAA=BBB").map (fun m => kvLookup m "dh".toList) =
      some (some "AAA".toList)
    ∧ "AAA".toList ≠ "AAA=BBB".toList := ⟨by decide, by decide⟩

lemma splitOnChar_of_not_mem {sep : Char} {l : List Char} (h : sep ∉ l) :
    splitOnChar sep l = [l] := by
  induction l with
  | nil => rfl
  | cons c rest ih =>
    rw [List.mem_cons, not_or] at h
    rw [splitOnChar, ih h.2]
    exact if_neg fun hc => h.1 hc.symm

/-- Claim C10: The parser is not total: whenever some non-empty `';'`-field of
the input contains no `'='`, the access to the second split part is out of
range, i.e. the total embedding takes the error branch (`none`); in
particular on the input `"dh"`. -/
theorem c10_parser_partiality :
    (∀ s : String, (∃ e ∈ fieldsSemi s.toList, '=' ∉ e) → parseKeyValues s = none)
    ∧ parseKeyValues "dh" = none := by
  refine ⟨fun s ⟨e, he, hne⟩ => ?_, by decide⟩
  rw [parseKeyValues, parseLoop_eq, if_neg]
  intro hall
  rw [List.all_eq_true] at hall
  have := hall e he
  rw [splitOnChar_of_not_mem hne] at this
  simp at this

/-- Closed witness for `c10_parser_partiality` at the input `"dh"`. -/
theorem c10_parser_partiality_witness : parseKeyValues "dh" = none :=
  c10_parser_partiality.1 "dh" ⟨"dh".toList, by decide, by decide⟩

/-! ### Handler lemmas -/

lemma encodedValue_ok {hv key name : String} {m : List (List Char × List Char)}
    {A : List Char} {bs : List Nat}
    (hp : parseKeyValues hv = some m) (hl : kvLookup m key.toList = some A)
    (hd : base64urlDecode A = some bs) :
    encodedValue hv key name = .ok (encode85 bs) := by
  simp only [String.toList] at hl
  simp [encodedValue, hp, hl, hd]

lemma encodedValue_missing {hv key name : String} {m : List (List Char × List Char)}
    (hp : parseKeyValues hv = some m) (hl : kvLookup m key.toList = none) :
    encodedValue hv key name =
      .failed ("Value " ++ key ++ " not found in header " ++ name) := by
  simp only [String.toList] at hl
  simp [encodedValue, hp, hl]

lemma encodedValue_badBase64 {hv key name : String} {m : List (List Char × List Char)}
    {A : List Char}
    (hp : parseKeyValues hv = some m) (hl : kvLookup m key.toList = some A)
    (hd : base64urlDecode A = none) :
    encodedValue hv key name = .failed "illegal base64 data" := by
  simp only [String.toList] at hl
  simp [encodedValue, hp, hl, hd]

lemma handler_push (now : Int) (req : Request) {kVal sVal : List Char}
    (hlen : ¬ (splitOnChar '/' req.path.toList).length < 3)
    (henc : req.contentEncoding = "aesgcm")
    (hdh : encodedValue req.cryptoKey "dh" "Crypto-Key" = .ok kVal)
    (hsalt : encodedValue req.encryption "salt" "Encryption" = .ok sVal) :
    handler now req =
      .push (buildNotification now req (splitOnChar '/' req.path.toList) kVal sVal) := by
  simp only [handler]
  rw [if_neg hlen, if_pos henc, hdh, hsalt]

lemma handler_dh_failed (now : Int) (req : Request) {msg : String}
    (hlen : ¬ (splitOnChar '/' req.path.toList).length < 3)
    (henc : req.contentEncoding = "aesgcm")
    (hdh : encodedValue req.cryptoKey "dh" "Crypto-Key" = .failed msg) :
    handler now req = .cryptoError ("Error retrieving public key: " ++ msg) := by
  simp only [handler]
  rw [if_neg hlen, if_pos henc, hdh]

lemma handler_salt_failed (now : Int) (req : Request) {kVal : List Char} {msg : String}
    (hlen : ¬ (splitOnChar '/' req.path.toList).length < 3)
    (henc : req.contentEncoding = "aesgcm")
    (hdh : encodedValue req.cryptoKey "dh" "Crypto-Key" = .ok kVal)
    (hsalt : encodedValue req.encryption "salt" "Encryption" = .failed msg) :
    handler now req = .cryptoError ("Error retrieving salt: " ++ msg) := by
  simp only [handler]
  rw [if_neg hlen, if_pos henc, hdh, hsalt]

lemma handler_push_inv {now : Int} {req : Request} {n : Notification}
    (h : handler now req = .push n) :
    ¬ (splitOnChar '/' req.path.toList).length < 3
    ∧ req.contentEncoding = "aesgcm"
    ∧ ∃ kVal sVal,
        encodedValue req.cryptoKey "dh" "Crypto-Key" = .ok kVal
        ∧ encodedValue req.encryption "salt" "Encryption" = .ok sVal
        ∧ n = buildNotification now req (splitOnChar '/' req.path.toList) kVal sVal := by
  simp only [handler] at h
  by_cases hlen : (splitOnChar '/' req.path.toList).length < 3
  · rw [if_pos hlen] at h; simp at h
  · rw [if_neg hlen] at h
    by_cases henc : req.contentEncoding = "aesgcm"
    · rw [if_pos henc] at h
      cases hdh : encodedValue req.cryptoKey "dh" "Crypto-Key" with
      | panicked => rw [hdh] at h; simp at h
      | failed msg => rw [hdh] at h; simp at h
      | ok kVal =>
        rw [hdh] at h
        cases hsalt : encodedValue req.encryption "salt" "Encryption" with
        | panicked => rw [hsalt] at h; simp at h
        | failed msg => rw [hsalt] at h; simp at h
        | ok sVal =>
          rw [hsalt] at h
          simp only [HandlerOutcome.push.injEq] at h
          exact ⟨hlen, henc, kVal, sVal, rfl, rfl, h.symm⟩
    · rw [if_neg henc] at h
      simp at h

lemma handler_not_malformed {now : Int} {req : Request}
    (hlen : ¬ (splitOnChar '/' req.path.toList).length < 3) :
    ∀ msg, handler now req ≠ .malformedPath msg := by
  intro msg h
  simp only [handler] at h
  rw [if_neg hlen] at h
  by_cases henc : req.contentEncoding = "aesgcm"
  · rw [if_pos henc] at h
    cases hdh : encodedValue req.cryptoKey "dh" "Crypto-Key" with
    | panicked => rw [hdh] at h; simp at h
    | failed m2 => rw [hdh] at h; simp at h
    | ok kVal =>
      rw [hdh] at h
      cases hsalt : encodedValue req.encryption "salt" "Encryption" with
      | panicked => rw [hsalt] at h; simp at h
      | failed m2 => rw [hsalt] at h; simp at h
      | ok sVal => rw [hsalt] at h; simp at h
  · rw [if_neg henc] at h
    simp at h

/-! ### C5: unsupported Content-Encoding -/

/-- Claim C5 (amended): For every request that passes the path-length check
and whose `Content-Encoding` is anything other than `"aesgcm"` (including
`"aes128gcm"` and the absent/empty case), the handler answers 415 with an
unsupported-encoding message and hands nothing to the push client.  (The
original claim ranged over *every* request; `c5_counterexample` shows a
request with a malformed path is instead rejected with 500.) -/
theorem c5_unsupported_encoding (now : Int) (req : Request)
    (hlen : ¬ (splitOnChar '/' req.path.toList).length < 3)
    (henc : req.contentEncoding ≠ "aesgcm") :
    handler now req =
      .unsupportedEncoding ("Unsupported Content-Encoding: " ++ req.contentEncoding)
    ∧ statusOf (handler now req) = some 415
    ∧ ∀ n, handler now req ≠ .push n := by
  have hmain : handler now req =
      .unsupportedEncoding ("Unsupported Content-Encoding: " ++ req.contentEncoding) := by
    simp only [handler]
    rw [if_neg hlen, if_neg henc]
  refine ⟨hmain, by rw [hmain]; rfl, fun n h => ?_⟩
  rw [hmain] at h
  simp at h

/-- Closed witness for `c5_unsupported_encoding` at a concrete request. -/
theorem c5_unsupported_encoding_witness :
    handler 0 { sampleRequest with contentEncoding := "aes128gcm" } =
      .unsupportedEncoding "Unsupported Content-Encoding: aes128gcm"
    ∧ statusOf (handler 0 { sampleRequest with contentEncoding := "aes128gcm" }) =
      some 415 :=
  ⟨(c5_unsupported_encoding 0 { sampleRequest with contentEncoding := "aes128gcm" }
      (by decide) (by decide)).1,
   (c5_unsupported_encoding 0 { sampleRequest with contentEncoding := "aes128gcm" }
      (by decide) (by decide)).2.1⟩

/-- Claim C5 counterexample: A request whose `Content-Encoding` is
`"aes128gcm"` but whose path is malformed is answered with status 500
(`Invalid URL path`), not 415, refuting the claim's universal
quantification over every request. -/
theorem c5_counterexample :
    c5Request.contentEncoding = "aes128gcm"
    ∧ handler 0 c5Request = .malformedPath "Invalid URL path: /relay-to"
    ∧ statusOf (handler 0 c5Request) = some 500 :=
  ⟨rfl, by decide, by decide⟩

/-! ### C9: `k` and `s` are set together -/

/-- Claim C9: Every notification the handler hands to the push client has
both `customFields.k` and `customFields.s` present (so in particular they
are both present or both absent), and they arise exactly from the
`"aesgcm"` branch: a dispatched notification implies the request's
`Content-Encoding` was `"aesgcm"`. -/
theorem c9_k_s_together (now : Int) (req : Request) (n : Notification)
    (h : handler now req = .push n) :
    (n.k.isSome ↔ n.s.isSome)
    ∧ n.k.isSome ∧ n.s.isSome
    ∧ req.contentEncoding = "aesgcm" := by
  obtain ⟨hlen, henc, kVal, sVal, hdh, hsalt, hn⟩ := handler_push_inv h
  subst hn
  refine ⟨by simp [buildNotification], by simp [buildNotification],
    by simp [buildNotification], henc⟩

/-- Closed witness for `c9_k_s_together` at `sampleRequest`. -/
theorem c9_k_s_together_witness :
    (sampleNotification.k.isSome ↔ sampleNotification.s.isSome)
    ∧ sampleNotification.k.isSome ∧ sampleNotification.s.isSome
    ∧ sampleRequest.contentEncoding = "aesgcm" :=
  c9_k_s_together 0 sampleRequest sampleNotification (by decide)

/-! ### C6: device token and route suffix -/

/-- Claim C6 (amended): For every dispatched notification whose request path
splits as `"" :: prefixSeg :: target :: extras`, the device token is the
target segment and `customFields.x` is the extra segments joined with `'/'`
stored as literal text; `x` is present iff there is at least one extra
segment — possibly the empty one a trailing slash produces, in which case
`x` is present but empty (refuting the original "present iff the route
suffix is non-empty", see `c6_counterexample`). -/
theorem c6_device_token_and_suffix (now : Int) (req : Request) (n : Notification)
    (prefixSeg target : List Char) (extras : List (List Char))
    (hsplit : splitOnChar '/' req.path.toList = [] :: prefixSeg :: target :: extras)
    (hpush : handler now req = .push n) :
    n.deviceToken = target
    ∧ n.x = (if extras ≠ [] then some (List.intercalate ['/'] extras) else none) := by
  obtain ⟨hlen, henc, kVal, sVal, hdh, hsalt, hn⟩ := handler_push_inv hpush
  subst hn
  have hsplit' : splitOnChar '/' req.path.data = [] :: prefixSeg :: target :: extras := by
    simpa only [String.toList] using hsplit
  constructor
  · simp [buildNotification, hsplit, hsplit']
  · simp only [buildNotification, hsplit, hsplit']
    cases extras with
    | nil => simp
    | cons e es => simp [List.length_cons]

/-- Closed witness for `c6_device_token_and_suffix`:
`/relay-to/abc123/foo/bar` yields device token `abc123` and
`x = "foo/bar"`. -/
theorem c6_device_token_and_suffix_witness :
    sampleNotification.deviceToken = "abc123".toList
    ∧ sampleNotification.x =
      (if ["foo".toList, "bar".toList] ≠ [] then
        some (List.intercalate ['/'] ["foo".toList, "bar".toList]) else none) :=
  c6_device_token_and_suffix 0 sampleRequest sampleNotification
    "relay-to".toList "abc123".toList ["foo".toList, "bar".toList]
    (by decide) (by decide)

/-- Claim C6 counterexample: For the path `/relay-to/abc/` the route suffix is
the empty string, yet `customFields.x` is present (as the empty string):
`x` present does not imply a non-empty route suffix. -/
theorem c6_counterexample :
    handler 0 c6Request = .push c6Notification
    ∧ c6Notification.x = some []
    ∧ List.intercalate ['/'] [([] : List Char)] = [] :=
  ⟨by decide, by decide, by decide⟩

/-! ### C7: the path check -/

/-- Claim C7 (amended): The handler rejects a request with the malformed-path
error (status 500) precisely when the path splits into fewer than three
`'/'`-separated components; the check happens before any encoding work, but
the target segment itself is never validated — in particular an empty
target is accepted (see `c7_counterexample`), refuting the original
"rejected unless the target segment is non-empty". -/
theorem c7_malformed_path_iff (now : Int) (req : Request) :
    (∃ msg, handler now req = .malformedPath msg) ↔
      (splitOnChar '/' req.path.toList).length < 3 := by
  constructor
  · rintro ⟨msg, h⟩
    by_contra hlen
    exact handler_not_malformed hlen msg h
  · intro hlen
    refine ⟨"Invalid URL path: " ++ req.path, ?_⟩
    simp only [handler]
    rw [if_pos hlen]

/-- Claim C7 counterexample: The path `/relay-to/` yields an empty target
segment, yet the request is not rejected: the handler dispatches a
notification whose device token is empty. -/
theorem c7_counterexample :
    (splitOnChar '/' c7Request.path.toList).getD 2 [] = []
    ∧ handler 0 c7Request = .push c7Notification
    ∧ c7Notification.deviceToken = [] :=
  ⟨by decide, by decide, by decide⟩

/-! ### C8: TTL and expiration -/

/-- Claim C8 (amended): In every dispatched notification the expiration is
set iff the `TTL` header is non-empty and parses under `strconv.Atoi` —
any integer, negative values included (refuting the original
"non-negative", see `c8_counterexample`); when it parses to `t` with
`|t| ≤ 9223372036` (so that the 64-bit nanosecond conversion cannot wrap)
the expiration is exactly `now + t` seconds.  Absent or non-numeric `TTL`
leaves the expiration unset and is not an error. -/
theorem c8_ttl_expiration (now : Int) (req : Request) (n : Notification)
    (hpush : handler now req = .push n) :
    (n.expiration.isSome ↔ req.ttl ≠ "" ∧ (goAtoi req.ttl).isSome)
    ∧ (∀ t : Int, req.ttl ≠ "" → goAtoi req.ttl = some t →
        t.natAbs ≤ 9223372036 →
        n.expiration = some (now + t * 1000000000)) := by
  obtain ⟨hlen, henc, kVal, sVal, hdh, hsalt, hn⟩ := handler_push_inv hpush
  subst hn
  constructor
  · by_cases ht : req.ttl = ""
    · simp [buildNotification, ht]
    · cases hat : goAtoi req.ttl <;> simp [buildNotification, ht, hat]
  · intro t htne hat hbound
    simp only [buildNotification, if_neg (fun h => htne h), htne, ne_eq,
      not_false_eq_true, if_true, hat]
    have hwrap : int64wrap (t * 1000000000) = t * 1000000000 := by
      rw [int64wrap]
      omega
    rw [hwrap]

/-- Closed witness for `c8_ttl_expiration`: `TTL: 60` gives an expiration
60 seconds after `now = 0`. -/
theorem c8_ttl_expiration_witness :
    sampleNotification.expiration = some (0 + 60 * 1000000000) :=
  (c8_ttl_expiration 0 sampleRequest sampleNotification (by decide)).2
    60 (by decide) (by decide) (by decide)

/-- Claim C8 counterexample: `TTL: -5` parses as a (negative) integer and the
handler *does* set the expiration — to 5 seconds in the past — refuting
the claim that the expiration is set only for a non-negative `TTL`. -/
theorem c8_counterexample :
    goAtoi "-5" = some (-5)
    ∧ (-5 : Int) < 0
    ∧ handler 0 c8Request = .push c8Notification
    ∧ c8Notification.expiration = some (-5000000000) :=
  ⟨by decide, by decide, by decide, by decide⟩

/-! ### C3: aesgcm crypto parameters -/

/-- Claim C3 (amended): For every request that passes the path check and has
`Content-Encoding: aesgcm`: if the `Crypto-Key` header parses with a `dh`
sub-field that base64url-decodes to bytes `A`, and the `Encryption` header
parses with a `salt` sub-field that decodes to bytes `B`, the dispatched
notification carries `customFields.k = encode85 A` and
`customFields.s = encode85 B`; if a sub-field is missing or fails base64url
decoding, the handler fails with status 500 and a message naming the
offending header/key, and nothing is dispatched.  (The original claim
ranged over every request; `c3_counterexample` shows a malformed path is
rejected first, with the path error instead.) -/
theorem c3_crypto_fields (now : Int) (req : Request)
    (hlen : ¬ (splitOnChar '/' req.path.toList).length < 3)
    (henc : req.contentEncoding = "aesgcm") :
    (∀ m A bsA m2 B bsB,
      parseKeyValues req.cryptoKey = some m →
      kvLookup m "dh".toList = some A →
      base64urlDecode A = some bsA →
      parseKeyValues req.encryption = some m2 →
      kvLookup m2 "salt".toList = some B →
      base64urlDecode B = some bsB →
      ∃ n, handler now req = .push n
        ∧ n.k = some (encode85 bsA) ∧ n.s = some (encode85 bsB))
    ∧ (∀ m,
      parseKeyValues req.cryptoKey = some m →
      kvLookup m "dh".toList = none →
      handler now req = .cryptoError
        ("Error retrieving public key: " ++
          ("Value " ++ "dh" ++ " not found in header " ++ "Crypto-Key"))
      ∧ statusOf (handler now req) = some 500
      ∧ ∀ n, handler now req ≠ .push n)
    ∧ (∀ m A,
      parseKeyValues req.cryptoKey = some m →
      kvLookup m "dh".toList = some A →
      base64urlDecode A = none →
      handler now req = .cryptoError
        ("Error retrieving public key: " ++ "illegal base64 data")
      ∧ statusOf (handler now req) = some 500
      ∧ ∀ n, handler now req ≠ .push n)
    ∧ (∀ m A bsA m2,
      parseKeyValues req.cryptoKey = some m →
      kvLookup m "dh".toList = some A →
      base64urlDecode A = some bsA →
      parseKeyValues req.encryption = some m2 →
      kvLookup m2 "salt".toList = none →
      handler now req = .cryptoError
        ("Error retrieving salt: " ++
          ("Value " ++ "salt" ++ " not found in header " ++ "Encryption"))
      ∧ statusOf (handler now req) = some 500
      ∧ ∀ n, handler now req ≠ .push n)
    ∧ (∀ m A bsA m2 B,
      parseKeyValues req.cryptoKey = some m →
      kvLookup m "dh".toList = some A →
      base64urlDecode A = some bsA →
      parseKeyValues req.encryption = some m2 →
      kvLookup m2 "salt".toList = some B →
      base64urlDecode B = none →
      handler now req = .cryptoError
        ("Error retrieving salt: " ++ "illegal base64 data")
      ∧ statusOf (handler now req) = some 500
      ∧ ∀ n, handler now req ≠ .push n) := by
  refine ⟨?_, ?_, ?_, ?_, ?_⟩
  · intro m A bsA m2 B bsB hp1 hl1 hd1 hp2 hl2 hd2
    have h := handler_push now req hlen henc
      (encodedValue_ok hp1 hl1 hd1) (encodedValue_ok hp2 hl2 hd2)
    exact ⟨_, h, by simp [buildNotification], by simp [buildNotification]⟩
  · intro m hp1 hl1
    have h := handler_dh_failed now req hlen henc (encodedValue_missing hp1 hl1)
    exact ⟨h, by rw [h]; rfl, fun n hn => by rw [h] at hn; simp at hn⟩
  · intro m A hp1 hl1 hd1
    have h := handler_dh_failed now req hlen henc (encodedValue_badBase64 hp1 hl1 hd1)
    exact ⟨h, by rw [h]; rfl, fun n hn => by rw [h] at hn; simp at hn⟩
  · intro m A bsA m2 hp1 hl1 hd1 hp2 hl2
    have h := handler_salt_failed now req hlen henc
      (encodedValue_ok hp1 hl1 hd1) (encodedValue_missing hp2 hl2)
    exact ⟨h, by rw [h]; rfl, fun n hn => by rw [h] at hn; simp at hn⟩
  · intro m A bsA m2 B hp1 hl1 hd1 hp2 hl2 hd2
    have h := handler_salt_failed now req hlen henc
      (encodedValue_ok hp1 hl1 hd1) (encodedValue_badBase64 hp2 hl2 hd2)
    exact ⟨h, by rw [h]; rfl, fun n hn => by rw [h] at hn; simp at hn⟩

/-- Closed witness for `c3_crypto_fields`: for `sampleRequest`
(`Crypto-Key: dh=AAAA`, `Encryption: salt=aGk`) the dispatched
notification carries `k = encode85 [0,0,0]` and `s = encode85 [104,105]`. -/
theorem c3_crypto_fields_witness :
    ∃ n, handler 0 sampleRequest = .push n
      ∧ n.k = some (encode85 [0, 0, 0]) ∧ n.s = some (encode85 [104, 105]) :=
  (c3_crypto_fields 0 sampleRequest (by decide) rfl).1
    [("dh".toList, "AAAA".toList)] "AAAA".toList [0, 0, 0]
    [("salt".toList, "aGk".toList)] "aGk".toList [104, 105]
    (by decide) (by decide) (by decide) (by decide) (by decide) (by decide)

/-- Claim C3 counterexample: A request with perfect `aesgcm` crypto headers
but a malformed path is rejected with the path error: no notification is
produced, so the translator does not set `customFields.k`, refuting the
claim's universal quantification over every aesgcm request. -/
theorem c3_counterexample :
    ({ sampleRequest with path := "" } : Request).contentEncoding = "aesgcm"
    ∧ handler 0 { sampleRequest with path := "" } = .malformedPath "Invalid URL path: "
    ∧ ∀ n, handler 0 { sampleRequest with path := "" } ≠ .push n := by
  refine ⟨rfl, by decide, fun n h => ?_⟩
  rw [show handler 0 { sampleRequest with path := "" } =
    .malformedPath "Invalid URL path: " by decide] at h
  simp at h

